import Mathlib

/-!
Shallow embedding of `src/autopilot/run.js` (strava-autopilot).

Numbers from the JavaScript source are modelled as rationals (`ℚ`); the
API-facing record types keep the source field names.  Network reads and the
wall clock are inputs: every `fetch` site is replaced by an oracle field of
`Env`, and the emitted side effects (network calls, activity updates) are
collected in an event trace.
-/

namespace Autopilot

/-- One lap as consumed from the laps endpoint (fields used by the source:
`lap_index`, `name`, `distance`, `moving_time`; `merged` is the flag the
merger adds, absent—false—on raw laps). -/
structure Lap where
  lap_index : ℕ
  name : String
  distance : ℚ
  moving_time : ℚ
  elapsed_time : ℚ
  merged : Bool
deriving DecidableEq

/-- Pace range produced by `paceRangeFromSettings`. -/
structure PaceRange where
  fastest : ℚ
  slowest : ℚ
deriving DecidableEq

/-- Activity summary/detail fields consumed by the source. `start_date` is
the epoch timestamp that `new Date(a.start_date).getTime()` yields. -/
structure Activity where
  id : ℕ
  name : String
  type : Option String
  sport_type : Option String
  workout_type : Option ℤ
  distance : Option ℚ
  average_heartrate : Option ℚ
  start_date : Option ℤ
deriving DecidableEq

/-- The `{name, description}` object built by `buildUpdate` /
`generateWorkoutDescription`. -/
structure Update where
  name : String
  description : String
deriving DecidableEq

/-- JavaScript `Math.round`: round half toward positive infinity. -/
def jsRound (q : ℚ) : ℤ := ⌊q + 1/2⌋

/-- JavaScript truncation of a rational toward zero (used for the `%`
remainder operator). -/
def ratTrunc (q : ℚ) : ℤ := Int.tdiv q.num (q.den : ℤ)

/-- JavaScript `a % b` on numbers: remainder with the sign of the dividend. -/
def jsMod (a b : ℚ) : ℚ := a - b * ((ratTrunc (a / b) : ℤ) : ℚ)

/-- Meters-per-unit divisor: `1609.344` for miles, `1000` for kilometers
(the `unitSystem === 'mi' ? meters / 1609.344 : meters / 1000` ternary). -/
def unitFactor (unitSystem : String) : ℚ :=
  if unitSystem = ("mi") then 1609344/1000 else 1000

/-- Source `paceMinutesPerUnit(meters, seconds, unitSystem)` (run.js 203-207). -/
def paceMinutesPerUnit (meters seconds : ℚ) (unitSystem : String) : Option ℚ :=
  if meters ≤ 0 then none
  else some ((seconds / 60) / (meters / unitFactor unitSystem))

/-- JavaScript `s.padStart(2, '0')`. -/
def pad2 (s : String) : String :=
  if 2 ≤ s.length then s else if s.length = 1 then ("0") ++ s else ("00")

/-- Source `formatPace` (run.js 209-216). `Math.floor` is `Int.fdiv`; the
`%` remainder is truncating, matching JavaScript on integers. -/
def formatPace (meters seconds : ℚ) (unitSystem : String) : String :=
  match paceMinutesPerUnit meters seconds unitSystem with
  | none => ("-")
  | some pace =>
    let totalSeconds : ℤ := jsRound (pace * 60)
    let mins : ℤ := Int.fdiv totalSeconds 60
    let secs : ℤ := Int.tmod totalSeconds 60
    toString mins ++ (":") ++ pad2 (toString secs) ++
      (if unitSystem = ("mi") then (" min/mi") else (" min/km"))

/-- Source `formatDuration` (run.js 218-222): floor minutes and floor of the
truncated remainder, independently. -/
def formatDuration (seconds : ℚ) : String :=
  let mins : ℤ := ⌊seconds / 60⌋
  let secs : ℤ := ⌊jsMod seconds 60⌋
  toString mins ++ (":") ++ pad2 (toString secs)

/-- Source `snapToMinuteIfClose(seconds, toleranceSeconds = 2)` (run.js
224-227); every call site of the source uses the default tolerance 2,
passed explicitly here. -/
def snapToMinuteIfClose (seconds toleranceSeconds : ℚ) : ℚ :=
  let nearestMinute : ℚ := ((jsRound (seconds / 60) : ℤ) : ℚ) * 60
  if |seconds - nearestMinute| ≤ toleranceSeconds then nearestMinute else seconds

/-- The qualifying test of `mergeLapsByPace` (and the identical `isWork`
closure of `generateWorkoutDescription`): pace defined and within
`[fastest, slowest]` inclusive. -/
def qualifies (paceRange : PaceRange) (unitSystem : String) (lap : Lap) : Bool :=
  match paceMinutesPerUnit lap.distance lap.moving_time unitSystem with
  | none => false
  | some pace => decide (paceRange.fastest ≤ pace) && decide (pace ≤ paceRange.slowest)

/-- The merged segment built by `flushGroup` for a group of two or more
qualifying laps: spread of the first lap with summed distance and moving
time, an index-range name, and the `merged` flag (run.js 238-249). -/
def mergedOf (l₁ : Lap) (rest : List Lap) : Lap :=
  { l₁ with
    name := ("Merged laps ") ++ toString l₁.lap_index ++ ("-") ++
      toString (((l₁ :: rest).getLastD l₁).lap_index)
    distance := ((l₁ :: rest).map Lap.distance).sum
    moving_time := ((l₁ :: rest).map Lap.moving_time).sum
    merged := true }

/-- Source `flushGroup` closure (run.js 233-252): a group of size one is
emitted unchanged, a larger group collapses to one merged segment. -/
def flushGroup : List Lap → List Lap
  | [] => []
  | [l] => [l]
  | l₁ :: l₂ :: rest => [mergedOf l₁ (l₂ :: rest)]

/-- The single left-to-right pass of `mergeLapsByPace` with the pending
qualifying group as explicit state (run.js 254-264). -/
def mergeLapsAux (paceRange : PaceRange) (unitSystem : String) :
    List Lap → List Lap → List Lap
  | group, [] => flushGroup group
  | group, lap :: rest =>
    if qualifies paceRange unitSystem lap then
      mergeLapsAux paceRange unitSystem (group ++ [lap]) rest
    else
      flushGroup group ++ lap :: mergeLapsAux paceRange unitSystem [] rest

/-- Source `mergeLapsByPace(laps, paceRange, unitSystem)` (run.js 229-266). -/
def mergeLapsByPace (laps : List Lap) (paceRange : PaceRange) (unitSystem : String) :
    List Lap := mergeLapsAux paceRange unitSystem [] laps

/-- Source `median` closure inside `generateWorkoutDescription` (run.js
303-307): ascending sort, exact middle for odd length, rounded mean of the
two central values for even length. -/
def median (values : List ℚ) : ℚ :=
  let sorted := List.insertionSort (· ≤ ·) values
  let mid := sorted.length / 2
  if sorted.length % 2 = 1 then sorted.getD mid 0
  else ((jsRound ((sorted.getD (mid - 1) 0 + sorted.getD mid 0) / 2) : ℤ) : ℚ)

/-- One rep of the detected interval block: a qualifying segment plus the
accumulated following rest time. -/
structure Rep where
  fast : Lap
  restSeconds : ℚ
deriving DecidableEq

/-- Adds rest time onto the last rep collected so far (the
`reps[reps.length - 1].restSeconds += seg.moving_time` mutation). -/
def addRestToLast (t : ℚ) : List Rep → List Rep
  | [] => []
  | [r] => [{ r with restSeconds := r.restSeconds + t }]
  | r :: rs => r :: addRestToLast t rs

/-- The rep-collection loop over the interval window (run.js 286-294):
qualifying segments start a rep, non-qualifying ones add to the previous
rep's rest and are dropped if no rep exists yet. -/
def buildReps (paceRange : PaceRange) (unitSystem : String) (window : List Lap) :
    List Rep :=
  window.foldl
    (fun acc seg =>
      if qualifies paceRange unitSystem seg then acc ++ [{ fast := seg, restSeconds := 0 }]
      else if acc.isEmpty then acc
      else addRestToLast seg.moving_time acc)
    []

/-- One body line of the workout description (run.js 312-326). -/
def repLine (repsLen : ℕ) (cooldownSeconds : ℚ) (unitSystem : String)
    (idx : ℕ) (rep : Rep) : String :=
  let repSeconds := snapToMinuteIfClose rep.fast.moving_time 2
  let repPace := formatPace rep.fast.distance repSeconds unitSystem
  let base := toString (idx + 1) ++ (") ") ++ formatDuration repSeconds ++ (" @ ") ++ repPace
  if 0 < rep.restSeconds ∧ idx < repsLen - 1 then
    base ++ (" + rest ") ++ formatDuration (snapToMinuteIfClose rep.restSeconds 2)
  else if idx = repsLen - 1 ∧ 0 < cooldownSeconds then
    base ++ (" + CD")
  else base

/-- Source `generateWorkoutDescription(laps, paceRange, unitSystem)`
(run.js 268-332). Returns `none` for "no workout detected". -/
def generateWorkoutDescription (laps : List Lap) (paceRange : PaceRange)
    (unitSystem : String) : Option Update :=
  if laps.isEmpty then none
  else
    let segments := mergeLapsByPace laps paceRange unitSystem
    match segments.findIdx? (qualifies paceRange unitSystem) with
    | none => none
    | some firstFastIdx =>
      match segments.reverse.findIdx? (qualifies paceRange unitSystem) with
      | none => none
      | some revIdx =>
        let lastFastIdx := segments.length - 1 - revIdx
        let window := (segments.take (lastFastIdx + 1)).drop firstFastIdx
        let reps := buildReps paceRange unitSystem window
        if reps.isEmpty then none
        else
          let cooldownSeconds := ((segments.drop (lastFastIdx + 1)).map Lap.moving_time).sum
          let repTimesRounded := reps.map (fun rep => snapToMinuteIfClose rep.fast.moving_time 2)
          let totalFastMeters := (reps.map (fun rep => rep.fast.distance)).sum
          let totalFastSecondsRounded := repTimesRounded.sum
          let fastAvgPace := formatPace totalFastMeters totalFastSecondsRounded unitSystem
          let typicalRepSeconds := median repTimesRounded
          let header := formatDuration typicalRepSeconds ++ (" x ") ++ toString reps.length ++
            (" (avg ") ++ fastAvgPace ++ (")")
          let lines := header :: reps.mapIdx (repLine reps.length cooldownSeconds unitSystem)
          some { name := header, description := String.intercalate ("\n") lines.tail }

/-- Source `formatAvgHrDescription(avgHr, maxHr)` (run.js 334-339). A `maxHr`
of `none` or `0` models the falsy `!maxHr` test. -/
def formatAvgHrDescription (avgHr : ℚ) (maxHr : Option ℚ) : String :=
  let rounded := jsRound avgHr
  match maxHr with
  | none => ("Avg HR: ") ++ toString rounded ++ (" bpm")
  | some m =>
    if m = 0 then ("Avg HR: ") ++ toString rounded ++ (" bpm")
    else
      let pct := jsRound (((rounded : ℚ) / m) * 100)
      ("Avg HR: ") ++ toString rounded ++ (" bpm (") ++ toString pct ++ ("% max)")

/-- Decides whether `needle` occurs as a contiguous substring, at character
level: JavaScript `hay.includes(needle)`. -/
def listHasSub (needle : List Char) : List Char → Bool
  | [] => needle.isEmpty
  | c :: t => needle.isPrefixOf (c :: t) || listHasSub needle t

/-- JavaScript `s.includes(search)`. -/
def jsIncludes (s search : String) : Bool := listHasSub search.toList s.toList

/-- Lower-cases every character, modelling `s.toLowerCase()` (the names the
source tests are ASCII). -/
def lowerStr (s : String) : String := String.mk (s.toList.map Char.toLower)

/-- JavaScript `s.trim()`: drop whitespace from both ends. -/
def trimChars (l : List Char) : List Char :=
  ((l.dropWhile Char.isWhitespace).reverse.dropWhile Char.isWhitespace).reverse

/-- String-level `trim`. -/
def jsTrim (s : String) : String := String.mk (trimChars s.toList)

/-- Whether the tail pattern of the week-total regex
`/\s*\(Week Total: [^)]+\)\s*$/i` matches this whole character list:
optional whitespace, the case-insensitive literal `"(Week Total: "`, one or
more non-`)` characters, `)`, then only whitespace to the end. -/
def weekTotalTailMatch (l : List Char) : Bool :=
  let l1 := l.dropWhile Char.isWhitespace
  if (l1.take 13).map Char.toLower = ("(week total: ").toList then
    let body := (l1.drop 13).takeWhile (fun c => !(c == (')' : Char)))
    if body.isEmpty then false
    else
      match (l1.drop 13).drop body.length with
      | (')' : Char) :: tail => tail.all Char.isWhitespace
      | _ => false
  else false

/-- JavaScript `name.replace(/\s*\(Week Total: [^)]+\)\s*$/i, '')`: the
pattern is end-anchored, so the leftmost match runs to the end of the
string and replacement keeps only the prefix before it. -/
def replaceWeekTotalTail : List Char → List Char
  | [] => []
  | c :: rest =>
    if weekTotalTailMatch (c :: rest) then []
    else c :: replaceWeekTotalTail rest

/-- Source `appendWeekTotalSuffix(name, suffix)` (run.js 341-344). -/
def appendWeekTotalSuffix (name suffix : String) : String :=
  let cleaned := jsTrim (String.mk (replaceWeekTotalTail name.toList))
  jsTrim (cleaned ++ (" ") ++ suffix)

/-- JavaScript `x.toFixed(1)` for non-negative `x`: nearest tenth, ties up. -/
def toFixed1 (x : ℚ) : String :=
  let n : ℕ := (⌊x * 10 + 1/2⌋ : ℤ).toNat
  toString (n / 10) ++ (".") ++ toString (n % 10)

/-- Source `formatWeekTotalSuffix(totalMeters, unitSystem)` (run.js 346-351). -/
def formatWeekTotalSuffix (totalMeters : ℚ) (unitSystem : String) : String :=
  let units := totalMeters / unitFactor unitSystem
  let label := if unitSystem = ("mi") then ("mi") else ("km")
  ("(Week Total: ") ++ toFixed1 units ++ (" ") ++ label ++ (")")

/-- Source `isDefaultName(name, defaults)` (run.js 95-97): exact membership. -/
def isDefaultName (name : String) (defaults : List String) : Bool :=
  defaults.contains name

/-- Source `isAlreadyRenamed(name)` (run.js 99-105). `/Easy Run/i` and
`/Week Total:\s*/i` hold exactly when the lower-cased name contains the
lower-cased literal; the third test is the anchored interval-header
pattern `/^\d+:\d{2}\s+x\s+\d+/i`. -/
def intervalHeaderTest (l : List Char) : Bool :=
  let d1 := l.takeWhile Char.isDigit
  if d1.isEmpty then false
  else
    match l.drop d1.length with
    | (':' : Char) :: c1 :: c2 :: rest =>
      if c1.isDigit && c2.isDigit then
        let ws1 := rest.takeWhile Char.isWhitespace
        if ws1.isEmpty then false
        else
          match rest.drop ws1.length with
          | x :: rest2 =>
            if x == ('x' : Char) || x == ('X' : Char) then
              let ws2 := rest2.takeWhile Char.isWhitespace
              if ws2.isEmpty then false
              else
                match rest2.drop ws2.length with
                | d :: _ => d.isDigit
                | [] => false
            else false
          | [] => false
      else false
    | _ => false

/-- Source `isAlreadyRenamed` (run.js 99-105). -/
def isAlreadyRenamed (name : String) : Bool :=
  if name = ("") then false
  else
    jsIncludes (lowerStr name) ("easy run") ||
    jsIncludes (lowerStr name) ("week total:") ||
    intervalHeaderTest name.toList

/-- Source `looksLikeRun(type)` (run.js 107-110). -/
def looksLikeRun (type : Option String) : Bool :=
  match type with
  | none => false
  | some t => if t = ("") then false else jsIncludes (lowerStr t) ("run")

/-- Settings consumed by `main` after JSON loading; the pace strings and
active-hours strings appear here as their `parsePace` / `parseTimeHM`
results, and optional fields carry the source's `??` defaults at use
sites. -/
structure Settings where
  activeStart : Option (ℕ × ℕ)
  activeEnd : Option (ℕ × ℕ)
  paceFastest : Option ℚ
  paceSlowest : Option ℚ
  lapRetryIntervalSeconds : Option ℕ
  lapRetryMaxMinutes : Option ℕ
  maxReadsPerRun : Option ℕ
  unitSystem : String
  maxHr : Option ℚ
  defaultRunNames : Option (List String)
  weekTotals : Bool

/-- The defaulted retry policy object built in `main` (run.js 362-366). -/
structure RetryPolicy where
  lapRetryIntervalSeconds : ℕ
  lapRetryMaxMinutes : ℕ
  maxReadsPerRun : ℕ

/-- Source `paceRangeFromSettings` (run.js 85-93), applied to the two
`parsePace` results. -/
def paceRangeFromSettings (fastest slowest : Option ℚ) : Option PaceRange :=
  match fastest, slowest with
  | some f, some s => some { fastest := min f s, slowest := max f s }
  | _, _ => none

/-- Source `isWithinActiveHours(settings, now)` (run.js 51-59), with the
`parseTimeHM` results and the current local time as inputs. -/
def isWithinActiveHours (s : Settings) (nowHour nowMinute : ℕ) : Bool :=
  match s.activeStart, s.activeEnd with
  | some st, some en =>
    let startMinutes := st.1 * 60 + st.2
    let endMinutes := en.1 * 60 + en.2
    let nowMinutes := nowHour * 60 + nowMinute
    decide (startMinutes ≤ nowMinutes) && decide (nowMinutes ≤ endMinutes)
  | _, _ => true

/-- A network event of a run: every `fetch` the source performs, plus the
activity update writes (`stravaPutActivity` payloads). -/
inductive Ev where
  | tokenRefresh : Ev
  | listActivities : Ev
  | getDetail (id : ℕ) : Ev
  | getLaps (id : ℕ) : Ev
  | listWeek (page : ℕ) : Ev
  | putActivity (id : ℕ) (name : Option String) (description : Option String) : Ev
deriving DecidableEq

/-- How a run of `main` ends: the early active-hours return, one of the
thrown errors, or normal completion. -/
inductive RunResult where
  | earlyReturn : RunResult
  | errCreds : RunResult
  | errPace : RunResult
  | errToken : RunResult
  | errList : RunResult
  | done : RunResult
deriving DecidableEq

/-- The run environment: settings, the wall clock, and one oracle per
external endpoint. `detailResp`/`lapsResp` return `none` for a non-ok
HTTP response; `lapsResp` is indexed by activity id and attempt number. -/
structure Env where
  settings : Settings
  nowHour : ℕ
  nowMinute : ℕ
  credsPresent : Bool
  tokenOk : Bool
  listResp : Option (List Activity)
  detailResp : ℕ → Option Activity
  lapsResp : ℕ → ℕ → Option (List Lap)
  weekPages : ℕ → Option (List Activity)

/-- Source `buildUpdate(activity, laps, paceRange, settings)` (run.js
476-489). `settings.maxHr && Number.isFinite(Number(settings.maxHr))`
becomes the zero-falsy normalisation of the optional rational. -/
def buildUpdate (activity : Activity) (laps : List Lap) (paceRange : PaceRange)
    (settings : Settings) : Update :=
  let unitSystem := if settings.unitSystem = ("km") then ("km") else ("mi")
  let maxHr : Option ℚ :=
    match settings.maxHr with
    | some v => if v = 0 then none else some v
    | none => none
  match generateWorkoutDescription laps paceRange unitSystem with
  | some workout => { name := workout.name, description := workout.description }
  | none =>
    let description :=
      match activity.average_heartrate with
      | some avgHr => formatAvgHrDescription avgHr maxHr
      | none => ("")
    { name := ("Easy Run"), description := description }

/-- The attempt loop of `fetchLapsWithRetry` (run.js 457-473): fuel is the
precomputed `maxAttempts`; each iteration first runs the `canContinue`
closure (which increments the shared read counter and compares it to the
cap), then fetches. Returns the laps (if any), the new read count, and the
`getLaps` events that were issued. -/
def fetchLapsAttempts (env : Env) (activityId : ℕ) (maxReads : ℕ) :
    ℕ → ℕ → ℕ → Option (List Lap) × ℕ × List Ev
  | 0, _, readsUsed => (none, readsUsed, [])
  | n + 1, attempt, readsUsed =>
    let r1 := readsUsed + 1
    if r1 < maxReads then
      match env.lapsResp activityId attempt with
      | none =>
        let next := fetchLapsAttempts env activityId maxReads n (attempt + 1) r1
        (next.1, next.2.1, Ev.getLaps activityId :: next.2.2)
      | some laps =>
        if laps.isEmpty then
          let next := fetchLapsAttempts env activityId maxReads n (attempt + 1) r1
          (next.1, next.2.1, Ev.getLaps activityId :: next.2.2)
        else (some laps, r1, [Ev.getLaps activityId])
    else (none, r1, [])

/-- Source `fetchLapsWithRetry(activityId, accessToken, retryPolicy,
canContinue)` (run.js 452-474). With `intervalMs = 0` the JavaScript bound
is `Infinity`; natural division yields `max 1 0 = 1` instead, so the
claims about the attempt bound assume a positive interval. -/
def fetchLapsWithRetry (env : Env) (activityId : ℕ) (retry : RetryPolicy)
    (readsUsed : ℕ) : Option (List Lap) × ℕ × List Ev :=
  let intervalMs := retry.lapRetryIntervalSeconds * 1000
  let maxAttempts := max 1 (retry.lapRetryMaxMinutes * 60 * 1000 / intervalMs)
  fetchLapsAttempts env activityId retry.maxReadsPerRun maxAttempts 1 readsUsed

/-- The per-activity loop of `main` (run.js 396-441), threading the read
counter and collecting events. -/
def processActivities (env : Env) (retry : RetryPolicy) (paceRange : PaceRange)
    (defaults : List String) : List Activity → ℕ → List Ev × ℕ
  | [], readsUsed => ([], readsUsed)
  | summary :: rest, readsUsed =>
    if retry.maxReadsPerRun ≤ readsUsed then ([], readsUsed)
    else if !(looksLikeRun summary.type || looksLikeRun summary.sport_type) then
      processActivities env retry paceRange defaults rest readsUsed
    else if isAlreadyRenamed summary.name then
      processActivities env retry paceRange defaults rest readsUsed
    else if !(isDefaultName summary.name defaults) then
      processActivities env retry paceRange defaults rest readsUsed
    else
      let r1 := readsUsed + 1
      match env.detailResp summary.id with
      | none =>
        let next := processActivities env retry paceRange defaults rest r1
        (Ev.getDetail summary.id :: next.1, next.2)
      | some detail =>
        if detail.workout_type = some 1 then
          let next := processActivities env retry paceRange defaults rest r1
          (Ev.getDetail summary.id :: next.1, next.2)
        else if !(isDefaultName detail.name defaults) then
          let next := processActivities env retry paceRange defaults rest r1
          (Ev.getDetail summary.id :: next.1, next.2)
        else
          let fl := fetchLapsWithRetry env detail.id retry r1
          match fl.1 with
          | none =>
            let next := processActivities env retry paceRange defaults rest fl.2.1
            (Ev.getDetail summary.id :: fl.2.2 ++ next.1, next.2)
          | some laps =>
            let update := buildUpdate detail laps paceRange env.settings
            let next := processActivities env retry paceRange defaults rest fl.2.1
            (Ev.getDetail summary.id ::
              fl.2.2 ++ Ev.putActivity detail.id (some update.name) (some update.description) :: next.1,
             next.2)

/-- The pagination loop of `maybeFinalizePreviousWeek` (run.js 507-524):
each iteration consumes one read via the shared `consumeRead` closure,
then fetches a page; a short page terminates with the accumulated list, a
failed page or an exhausted budget aborts with `none`. -/
def weekPaginate (pages : ℕ → Option (List Activity)) (maxReads : ℕ)
    (page readsUsed : ℕ) (acc : List Activity) : List Ev × ℕ × Option (List Activity) :=
  if h : readsUsed + 1 < maxReads then
    match pages page with
    | none => ([Ev.listWeek page], readsUsed + 1, none)
    | some batch =>
      if batch.length < 200 then ([Ev.listWeek page], readsUsed + 1, some (acc ++ batch))
      else
        let next := weekPaginate pages maxReads (page + 1) (readsUsed + 1) (acc ++ batch)
        (Ev.listWeek page :: next.1, next.2)
  else ([], readsUsed + 1, none)
termination_by maxReads - readsUsed
decreasing_by omega

/-- The run-type filter of the weekly aggregator (run.js 528). -/
def weeklyRuns (activities : List Activity) : List Activity :=
  activities.filter (fun a => looksLikeRun a.type || looksLikeRun a.sport_type)

/-- The week total in meters (run.js 531). -/
def weeklyTotal (runs : List Activity) : ℚ :=
  runs.foldl (fun s a => s + a.distance.getD 0) 0

/-- The descending start-date order used on the candidate list; the
comparator `(a, b) => b.getTime() - a.getTime()` sorts by epoch time
descending, stably. -/
def byStartDesc (a b : Activity) : Prop := b.start_date.getD 0 ≤ a.start_date.getD 0

instance : DecidableRel byStartDesc := fun a b =>
  inferInstanceAs (Decidable (b.start_date.getD 0 ≤ a.start_date.getD 0))

/-- Target selection of the weekly aggregator (run.js 532-535): keep
activities with a start date, sort by start date descending, take the
first that is not a race. -/
def weeklyTarget (runs : List Activity) : Option Activity :=
  (List.insertionSort byStartDesc (runs.filter (fun a => a.start_date.isSome))).find?
    (fun a => decide (a.workout_type ≠ some 1))

/-- The normalised unit system (`settings.unitSystem === 'km' ? 'km' :
'mi'`). -/
def weekUnit (settings : Settings) : String :=
  if settings.unitSystem = ("km") then ("km") else ("mi")

/-- Source `maybeFinalizePreviousWeek(now, settings, accessToken,
consumeRead)` (run.js 491-550). Luxon's week-boundary computation only
parameterises the listing URL, so it is absorbed into the `weekPages`
oracle. Besides the trace and read counter it returns the rename it
issued, if any. -/
def maybeFinalizePreviousWeek (env : Env) (maxReads readsUsed : ℕ) :
    List Ev × ℕ × Option (ℕ × String) :=
  let nowMinutes := env.nowHour * 60 + env.nowMinute
  let startMinutes :=
    match env.settings.activeStart with
    | some st => st.1 * 60 + st.2
    | none => 0
  if startMinutes + 30 < nowMinutes then ([], readsUsed, none)
  else
    match weekPaginate env.weekPages maxReads 1 readsUsed [] with
    | (evs, r, none) => (evs, r, none)
    | (evs, r, some activities) =>
      if activities.isEmpty then (evs, r, none)
      else
        let runs := weeklyRuns activities
        if runs.isEmpty then (evs, r, none)
        else
          let totalMeters := weeklyTotal runs
          match weeklyTarget runs with
          | none => (evs, r, none)
          | some lastRun =>
            let suffix := formatWeekTotalSuffix totalMeters (weekUnit env.settings)
            if lastRun.name ≠ ("") ∧ jsIncludes lastRun.name suffix then (evs, r, none)
            else
              let newName := appendWeekTotalSuffix lastRun.name suffix
              (evs ++ [Ev.putActivity lastRun.id (some newName) none], r,
               some (lastRun.id, newName))

/-- Source `main()` (run.js 354-450) as a trace-producing function of the
environment. -/
def runMain (env : Env) : List Ev × RunResult :=
  if !(isWithinActiveHours env.settings env.nowHour env.nowMinute) then
    ([], RunResult.earlyReturn)
  else
    let retry : RetryPolicy :=
      { lapRetryIntervalSeconds := env.settings.lapRetryIntervalSeconds.getD 60
        lapRetryMaxMinutes := env.settings.lapRetryMaxMinutes.getD 30
        maxReadsPerRun := env.settings.maxReadsPerRun.getD 90 }
    if !env.credsPresent then ([], RunResult.errCreds)
    else
      match paceRangeFromSettings env.settings.paceFastest env.settings.paceSlowest with
      | none => ([], RunResult.errPace)
      | some paceRange =>
        if !env.tokenOk then ([Ev.tokenRefresh], RunResult.errToken)
        else
          match env.listResp with
          | none => ([Ev.tokenRefresh, Ev.listActivities], RunResult.errList)
          | some activities =>
            let defaults := env.settings.defaultRunNames.getD []
            let loop := processActivities env retry paceRange defaults activities 1
            let evs := Ev.tokenRefresh :: Ev.listActivities :: loop.1
            if env.settings.weekTotals then
              let wk := maybeFinalizePreviousWeek env retry.maxReadsPerRun loop.2
              (evs ++ wk.1, RunResult.done)
            else (evs, RunResult.done)

/-- Renames the activity with the given id, leaving every other field and
every other activity unchanged (the effect of a successful weekly rename
on the listing data). -/
def renameIfId (i : ℕ) (n : String) (a : Activity) : Activity :=
  if a.id = i then { a with name := n } else a

/-- The environment seen by a second run after a rename of activity `i` to
`n` was applied: identical except that the weekly listing reflects the new
name. -/
def envRenamed (env : Env) (i : ℕ) (n : String) : Env :=
  { env with weekPages := fun p => Option.map (List.map (renameIfId i n)) (env.weekPages p) }

/-- A qualifying sample lap: 1000 m in 360 s is a 6:00 min/km pace. -/
def exLap : Lap :=
  { lap_index := 1, name := ("Lap 1"), distance := 1000, moving_time := 360,
    elapsed_time := 360, merged := false }

/-- A non-qualifying sample lap: 1000 m in 600 s is a 10:00 min/km pace. -/
def lapSlow : Lap :=
  { lap_index := 1, name := ("Lap 1"), distance := 1000, moving_time := 600,
    elapsed_time := 600, merged := false }

/-- Sample pace range, 5:00-7:00 min/km. -/
def exRange : PaceRange := { fastest := 5, slowest := 7 }

/-- Sample settings: kilometers, one default name, week totals on. -/
def settingsBase : Settings :=
  { activeStart := some (8, 0), activeEnd := some (20, 0),
    paceFastest := some 5, paceSlowest := some 7,
    lapRetryIntervalSeconds := none, lapRetryMaxMinutes := none,
    maxReadsPerRun := none, unitSystem := ("km"), maxHr := none,
    defaultRunNames := some [("Morning Run")], weekTotals := true }

/-- A previous-week run whose name is not a configured default name. -/
def actC4 : Activity :=
  { id := 7, name := ("Lunch Jog"), type := some ("Run"), sport_type := none,
    workout_type := none, distance := some 5000, average_heartrate := none,
    start_date := some 100 }

/-- Environment in which the per-activity loop has nothing to do and the
weekly aggregator renames `actC4`. -/
def envC4 : Env :=
  { settings := settingsBase, nowHour := 8, nowMinute := 0,
    credsPresent := true, tokenOk := true, listResp := some [],
    detailResp := fun _ => none, lapsResp := fun _ _ => none,
    weekPages := fun _ => some [actC4] }

/-- The same previous-week run after the weekly suffix was applied. -/
def actC8a : Activity := { actC4 with name := ("Lunch Jog (Week Total: 5.0 km)") }

/-- Environment whose weekly candidate already carries the exact suffix. -/
def envC8a : Env := { envC4 with weekPages := fun _ => some [actC8a] }

/-- A default-named summary/detail for the per-activity loop. -/
def actC4w : Activity :=
  { id := 42, name := ("Morning Run"), type := some ("Run"), sport_type := none,
    workout_type := none, distance := none, average_heartrate := none,
    start_date := none }

/-- Environment in which the per-activity loop issues one Easy-Run rewrite
(laps present but not qualifying) and week totals are disabled. -/
def envC4w : Env :=
  { settings := { settingsBase with weekTotals := false },
    nowHour := 9, nowMinute := 0, credsPresent := true, tokenOk := true,
    listResp := some [actC4w], detailResp := fun _ => some actC4w,
    lapsResp := fun _ _ => some [lapSlow], weekPages := fun _ => none }

/-- Environment with missing credentials and inert oracles. -/
def envC9 : Env :=
  { settings := settingsBase, nowHour := 9, nowMinute := 0,
    credsPresent := false, tokenOk := false, listResp := none,
    detailResp := fun _ => none, lapsResp := fun _ _ => none,
    weekPages := fun _ => none }

/-- Detail activity carrying an average heart rate, for the Easy-Run body. -/
def actHr : Activity :=
  { id := 9, name := ("Morning Run"), type := some ("Run"), sport_type := none,
    workout_type := none, distance := none, average_heartrate := some 150,
    start_date := none }

/-- Settings with a configured maximum heart rate. -/
def settingsHr : Settings := { settingsBase with maxHr := some 190 }

/-- The source's default retry policy (60 s interval, 30 min budget, 90
reads per run). -/
def retryDefault : RetryPolicy :=
  { lapRetryIntervalSeconds := 60, lapRetryMaxMinutes := 30, maxReadsPerRun := 90 }

/-- Adjacent-pair relation obeyed by merger output: of two neighbouring
segments, the right one fails the qualifying test whenever the left one
passes it (no two adjacent segments both qualify). -/
def sepQual (paceRange : PaceRange) (unitSystem : String) (a b : Lap) : Prop :=
  qualifies paceRange unitSystem a = true → qualifies paceRange unitSystem b = false

/-! ## Theorems -/

/-- The meters-per-unit divisor is positive for both unit systems. -/
theorem unitFactor_pos (u : String) : 0 < unitFactor u := by
  unfold unitFactor
  split <;> norm_num

/-- The kilometers branch of the unit divisor. -/
theorem unitFactor_km : unitFactor ("km") = 1000 := by
  unfold unitFactor
  rw [if_neg (by decide)]

/-- The flushed pending group is empty or a single segment. -/
theorem flushGroup_nil_or_single (g : List Lap) :
    flushGroup g = [] ∨ ∃ x, flushGroup g = [x] := by
  match g with
  | [] => exact Or.inl rfl
  | [l] => exact Or.inr ⟨l, rfl⟩
  | l₁ :: l₂ :: rest => exact Or.inr ⟨_, rfl⟩

/-- A flushed group, having at most one element, is trivially a chain. -/
theorem chain'_flushGroup (pr : PaceRange) (u : String) (g : List Lap) :
    List.Chain' (sepQual pr u) (flushGroup g) := by
  rcases flushGroup_nil_or_single g with h | ⟨x, h⟩ <;> rw [h] <;> simp

/-- Merger output never has two adjacent qualifying segments: a qualifying
group is flushed exactly when a non-qualifying lap (or the end) follows. -/
theorem mergeAux_chain (pr : PaceRange) (u : String) :
    ∀ laps group : List Lap, List.Chain' (sepQual pr u) (mergeLapsAux pr u group laps) := by
  intro laps
  induction laps with
  | nil => intro group; exact chain'_flushGroup pr u group
  | cons lap rest ih =>
    intro group
    by_cases hq : qualifies pr u lap = true
    · simpa only [mergeLapsAux, if_pos hq] using ih (group ++ [lap])
    · simp only [mergeLapsAux, if_neg hq]
      rw [List.chain'_append]
      refine ⟨chain'_flushGroup pr u group, ?_, ?_⟩
      · rw [List.chain'_cons']
        exact ⟨fun y _ hlap => absurd hlap hq, ih []⟩
      · intro x _ y hy
        have : lap = y := by simpa using hy
        subst this
        exact fun _ => Bool.eq_false_iff.mpr hq

/-- Pushing a single qualifying segment through the merger when the next
segment (if any) does not qualify emits it unchanged. -/
theorem mergeAux_single_step (pr : PaceRange) (u : String) (x : Lap) (rest : List Lap)
    (hx : qualifies pr u x = true)
    (hhead : ∀ y ∈ rest.head?, sepQual pr u x y) :
    mergeLapsAux pr u [x] rest = x :: mergeLapsAux pr u [] rest := by
  cases rest with
  | nil => simp [mergeLapsAux, flushGroup]
  | cons y t =>
    have hy : qualifies pr u y = false := hhead y (by simp) hx
    have hyq : ¬ qualifies pr u y = true := by simp [hy]
    simp [mergeLapsAux, if_neg hyq, flushGroup]

/-- A list with no two adjacent qualifying segments is a fixed point of the
merger pass. -/
theorem mergeAux_fixed (pr : PaceRange) (u : String) :
    ∀ l : List Lap, List.Chain' (sepQual pr u) l → mergeLapsAux pr u [] l = l := by
  intro l
  induction l with
  | nil => intro _; rfl
  | cons x rest ih =>
    intro hch
    rw [List.chain'_cons'] at hch
    obtain ⟨hhead, htail⟩ := hch
    by_cases hx : qualifies pr u x = true
    · have h1 : mergeLapsAux pr u [] (x :: rest) = mergeLapsAux pr u [x] rest := by
        simp [mergeLapsAux, if_pos hx]
      rw [h1, mergeAux_single_step pr u x rest hx hhead, ih htail]
    · simp [mergeLapsAux, if_neg hx, flushGroup, ih htail]

/-- C1: the lap classifier/merger is idempotent — re-running
`mergeLapsByPace` on its own output with the same pace range and unit
returns that output unchanged, so the qualifying-segment boundaries
established over the raw laps never move. -/
theorem mergeLapsByPace_idempotent (laps : List Lap) (paceRange : PaceRange)
    (unitSystem : String) (_h1 : 0 < paceRange.fastest)
    (_h2 : paceRange.fastest ≤ paceRange.slowest) :
    mergeLapsByPace (mergeLapsByPace laps paceRange unitSystem) paceRange unitSystem =
      mergeLapsByPace laps paceRange unitSystem :=
  mergeAux_fixed paceRange unitSystem _ (mergeAux_chain paceRange unitSystem laps [])

/-- Witness for C1 at a concrete lap list and pace range. -/
theorem mergeLapsByPace_idempotent_witness :
    mergeLapsByPace (mergeLapsByPace [exLap, lapSlow] exRange ("km")) exRange ("km") =
      mergeLapsByPace [exLap, lapSlow] exRange ("km") :=
  mergeLapsByPace_idempotent [exLap, lapSlow] exRange ("km")
    (by norm_num [exRange]) (by norm_num [exRange])

/-- Any per-lap measure whose value on a merged segment is the sum over the
group is conserved by `flushGroup`. -/
theorem flushGroup_measure (f : Lap → ℚ)
    (hf : ∀ l₁ rest, f (mergedOf l₁ rest) = ((l₁ :: rest).map f).sum) :
    ∀ g : List Lap, ((flushGroup g).map f).sum = (g.map f).sum := by
  intro g
  match g with
  | [] => rfl
  | [l] => rfl
  | l₁ :: l₂ :: rest => simp [flushGroup, hf]

/-- Conservation through the merger pass, with the pending group counted. -/
theorem mergeAux_measure (pr : PaceRange) (u : String) (f : Lap → ℚ)
    (hf : ∀ l₁ rest, f (mergedOf l₁ rest) = ((l₁ :: rest).map f).sum) :
    ∀ laps group : List Lap,
      ((mergeLapsAux pr u group laps).map f).sum = (group.map f).sum + (laps.map f).sum := by
  intro laps
  induction laps with
  | nil => intro group; simp [mergeLapsAux, flushGroup_measure f hf]
  | cons lap rest ih =>
    intro group
    by_cases hq : qualifies pr u lap = true
    · simp only [mergeLapsAux, if_pos hq]
      rw [ih (group ++ [lap])]
      simp
      try ring
    · simp only [mergeLapsAux, if_neg hq]
      simp [flushGroup_measure f hf, ih []]
      try ring

/-- C5: merge conservation — for every lap sequence, pace range and unit,
the output of `mergeLapsByPace` has the same total distance and the same
total moving time as the input. -/
theorem mergeLapsByPace_conserves (laps : List Lap) (paceRange : PaceRange)
    (unitSystem : String) :
    ((mergeLapsByPace laps paceRange unitSystem).map Lap.distance).sum =
      (laps.map Lap.distance).sum ∧
    ((mergeLapsByPace laps paceRange unitSystem).map Lap.moving_time).sum =
      (laps.map Lap.moving_time).sum := by
  constructor
  · simpa using mergeAux_measure paceRange unitSystem Lap.distance (fun l₁ rest => rfl) laps []
  · simpa using mergeAux_measure paceRange unitSystem Lap.moving_time (fun l₁ rest => rfl) laps []

/-- The sample lap `exLap` passes the qualifying test for `exRange` in km. -/
theorem exLap_qualifies : qualifies exRange ("km") exLap = true := by
  norm_num [qualifies, paceMinutesPerUnit, unitFactor_km, exLap, exRange]

/-- When every lap qualifies, the merger is exactly one flush of the whole
input. -/
theorem mergeAux_all_qual (pr : PaceRange) (u : String) :
    ∀ laps group : List Lap,
      (∀ l ∈ group ++ laps, qualifies pr u l = true) →
      mergeLapsAux pr u group laps = flushGroup (group ++ laps) := by
  intro laps
  induction laps with
  | nil => intro group _; simp [mergeLapsAux]
  | cons lap rest ih =>
    intro group hall
    have hq : qualifies pr u lap = true := hall lap (by simp)
    simp only [mergeLapsAux, if_pos hq]
    rw [ih (group ++ [lap]) (by intro l hl; apply hall; simpa using hl)]
    simp

/-- C3 counterexample: a one-lap all-qualifying input is returned as that
lap itself, which does not carry the merged flag — contradicting "the
output is a single segment carrying the merged flag" for every non-empty
all-qualifying sequence. -/
theorem mergeLaps_single_qualifying_not_merged :
    qualifies exRange ("km") exLap = true ∧
    mergeLapsByPace [exLap] exRange ("km") = [exLap] ∧
    exLap.merged = false := by
  refine ⟨exLap_qualifies, ?_, rfl⟩
  simp [mergeLapsByPace, mergeLapsAux, exLap_qualifies, flushGroup]

/-- C3 amended: the empty input gives empty output; a non-empty
all-qualifying input collapses to exactly one segment — the lap itself
(unchanged, no merged flag added) for a singleton input, and a single
merged-flagged aggregate for two or more laps. -/
theorem mergeLaps_edge_cases (paceRange : PaceRange) (unitSystem : String) :
    mergeLapsByPace [] paceRange unitSystem = [] ∧
    ∀ laps : List Lap, laps ≠ [] →
      (∀ l ∈ laps, qualifies paceRange unitSystem l = true) →
      (mergeLapsByPace laps paceRange unitSystem).length = 1 ∧
      (∀ l, laps = [l] → mergeLapsByPace laps paceRange unitSystem = [l]) ∧
      (∀ l₁ l₂ rest, laps = l₁ :: l₂ :: rest →
        mergeLapsByPace laps paceRange unitSystem = [mergedOf l₁ (l₂ :: rest)] ∧
        (mergedOf l₁ (l₂ :: rest)).merged = true) := by
  refine ⟨rfl, ?_⟩
  intro laps hne hq
  have h : mergeLapsByPace laps paceRange unitSystem = flushGroup laps := by
    simpa [mergeLapsByPace] using
      mergeAux_all_qual paceRange unitSystem laps [] (by simpa using hq)
  refine ⟨?_, ?_, ?_⟩
  · rw [h]
    match laps, hne with
    | l :: rest, _ => cases rest <;> simp [flushGroup]
  · intro l hl
    subst hl
    rw [h]
    rfl
  · intro l₁ l₂ rest hl
    subst hl
    rw [h]
    exact ⟨rfl, rfl⟩

/-- Witness for the amended C3 at a concrete two-lap qualifying input. -/
theorem mergeLaps_edge_cases_witness :
    (mergeLapsByPace [exLap, exLap] exRange ("km")).length = 1 ∧
    (∀ l, ([exLap, exLap] : List Lap) = [l] →
      mergeLapsByPace [exLap, exLap] exRange ("km") = [l]) ∧
    (∀ l₁ l₂ rest, ([exLap, exLap] : List Lap) = l₁ :: l₂ :: rest →
      mergeLapsByPace [exLap, exLap] exRange ("km") = [mergedOf l₁ (l₂ :: rest)] ∧
      (mergedOf l₁ (l₂ :: rest)).merged = true) :=
  (mergeLaps_edge_cases exRange ("km")).2 [exLap, exLap] (by simp)
    (by
      intro l hl
      have hl' : l = exLap := by simpa using hl
      rw [hl']
      exact exLap_qualifies)

/-- C2 counterexample: a positive distance covered in zero seconds yields
pace `some 0`, which is not strictly positive. -/
theorem paceMinutesPerUnit_zero_not_positive :
    paceMinutesPerUnit 1000 0 ("km") = some 0 ∧
    ¬ ∃ p, paceMinutesPerUnit 1000 0 ("km") = some p ∧ 0 < p := by
  have h : paceMinutesPerUnit 1000 0 ("km") = some 0 := by
    norm_num [paceMinutesPerUnit, unitFactor_km]
  refine ⟨h, ?_⟩
  rintro ⟨p, hp, hpos⟩
  rw [h] at hp
  have : (0 : ℚ) = p := by injection hp
  rw [← this] at hpos
  exact lt_irrefl 0 hpos

/-- C2 amended: the pace converter returns `none` exactly when
`distanceMeters ≤ 0`; for positive distance and non-negative seconds it
returns a (finite) non-negative rational, strictly positive whenever the
seconds are strictly positive. -/
theorem paceMinutesPerUnit_spec (meters seconds : ℚ) (unitSystem : String) :
    (paceMinutesPerUnit meters seconds unitSystem = none ↔ meters ≤ 0) ∧
    (0 < meters → 0 ≤ seconds →
      ∃ p, paceMinutesPerUnit meters seconds unitSystem = some p ∧
        0 ≤ p ∧ (0 < seconds → 0 < p)) := by
  constructor
  · unfold paceMinutesPerUnit
    split
    next hm => simpa using hm
    next hm => simpa using hm
  · intro hm hs
    have hne : ¬ meters ≤ 0 := not_le.mpr hm
    have hc : 0 < unitFactor unitSystem := unitFactor_pos unitSystem
    have hmc : 0 < meters / unitFactor unitSystem := div_pos hm hc
    refine ⟨(seconds / 60) / (meters / unitFactor unitSystem), ?_, ?_, ?_⟩
    · simp [paceMinutesPerUnit, hne]
    · exact div_nonneg (by positivity) hmc.le
    · intro hs'
      exact div_pos (by positivity) hmc

/-- Witness for the amended C2 at a concrete positive input. -/
theorem paceMinutesPerUnit_spec_witness :
    ∃ p, paceMinutesPerUnit 1000 300 ("km") = some p ∧
      0 ≤ p ∧ (0 < (300 : ℚ) → 0 < p) :=
  (paceMinutesPerUnit_spec 1000 300 ("km")).2 (by norm_num) (by norm_num)

/-- C6: the typical value the synthesizer computes (`median`, applied to the
snapped rep durations) is the median of the list: against any sorted
permutation, an odd-length list yields the exact middle value, an
even-length list the mean of the two central values rounded to the nearest
second. -/
theorem median_is_sorted_middle (durations s : List ℚ) (_hne : durations ≠ [])
    (hperm : s.Perm durations) (hsort : List.Sorted (· ≤ ·) s) :
    median durations =
      if durations.length % 2 = 1 then s.getD (durations.length / 2) 0
      else ((jsRound ((s.getD (durations.length / 2 - 1) 0 +
        s.getD (durations.length / 2) 0) / 2) : ℤ) : ℚ) := by
  have h1 : (List.insertionSort (· ≤ ·) durations).Perm durations :=
    List.perm_insertionSort _ _
  have h2 : List.Sorted (· ≤ ·) (List.insertionSort (· ≤ ·) durations) :=
    List.sorted_insertionSort _ _
  have hs : s = List.insertionSort (· ≤ ·) durations :=
    List.eq_of_perm_of_sorted (hperm.trans h1.symm) hsort h2
  subst hs
  simp only [median, List.length_insertionSort]

/-- Witness for C6 on a concrete odd-length list. -/
theorem median_is_sorted_middle_witness :
    median [(360 : ℚ), 120, 240] =
      if ([(360 : ℚ), 120, 240] : List ℚ).length % 2 = 1 then
        ([(120 : ℚ), 240, 360] : List ℚ).getD (([(360 : ℚ), 120, 240] : List ℚ).length / 2) 0
      else ((jsRound ((([(120 : ℚ), 240, 360] : List ℚ).getD
          (([(360 : ℚ), 120, 240] : List ℚ).length / 2 - 1) 0 +
        ([(120 : ℚ), 240, 360] : List ℚ).getD
          (([(360 : ℚ), 120, 240] : List ℚ).length / 2) 0) / 2) : ℤ) : ℚ) :=
  median_is_sorted_middle [(360 : ℚ), 120, 240] [(120 : ℚ), 240, 360]
    (by simp)
    (show (([(120 : ℚ), 240] ++ [360]) : List ℚ).Perm ([(360 : ℚ)] ++ [120, 240]) from
      List.perm_append_comm)
    (by norm_num [List.sorted_cons])

/-- The retry loop performs at most as many fetches as it has fuel. -/
theorem fetchLapsAttempts_len (env : Env) (aid mR : ℕ) :
    ∀ n attempt r, (fetchLapsAttempts env aid mR n attempt r).2.2.length ≤ n := by
  intro n
  induction n with
  | zero => intro attempt r; simp [fetchLapsAttempts]
  | succ n ih =>
    intro attempt r
    simp only [fetchLapsAttempts]
    by_cases h : r + 1 < mR
    · simp only [if_pos h]
      cases hres : env.lapsResp aid attempt with
      | none =>
        simpa using Nat.succ_le_succ (ih (attempt + 1) (r + 1))
      | some laps =>
        by_cases hl : laps.isEmpty
        · simp only [if_pos hl]
          simpa using Nat.succ_le_succ (ih (attempt + 1) (r + 1))
        · simp [hl]
    · simp [if_neg h]

/-- With fuel left and budget allowing the first attempt, the retry loop
performs at least one fetch. -/
theorem fetchLapsAttempts_at_least_one (env : Env) (aid mR n attempt r : ℕ)
    (h : r + 1 < mR) :
    1 ≤ (fetchLapsAttempts env aid mR (n + 1) attempt r).2.2.length := by
  simp only [fetchLapsAttempts, if_pos h]
  cases env.lapsResp aid attempt with
  | none => simp
  | some laps =>
    by_cases hl : laps.isEmpty
    · simp [hl]
    · simp [hl]

/-- C7: the bounded lap poller performs at most
`max 1 (maxMinutes * 60 * 1000 / intervalMs)` fetch attempts (in
particular, the loop terminates), and performs at least one attempt
whenever the read-budget closure permits the first one. -/
theorem fetchLapsWithRetry_attempt_bound (env : Env) (activityId : ℕ)
    (retry : RetryPolicy) (readsUsed : ℕ)
    (_hpos : 0 < retry.lapRetryIntervalSeconds) :
    (fetchLapsWithRetry env activityId retry readsUsed).2.2.length ≤
      max 1 (retry.lapRetryMaxMinutes * 60 * 1000 /
        (retry.lapRetryIntervalSeconds * 1000)) ∧
    (readsUsed + 1 < retry.maxReadsPerRun →
      1 ≤ (fetchLapsWithRetry env activityId retry readsUsed).2.2.length) := by
  constructor
  · exact fetchLapsAttempts_len env activityId retry.maxReadsPerRun _ 1 readsUsed
  · intro h
    obtain ⟨m, hm⟩ : ∃ m, max 1 (retry.lapRetryMaxMinutes * 60 * 1000 /
        (retry.lapRetryIntervalSeconds * 1000)) = m + 1 :=
      ⟨max 1 (retry.lapRetryMaxMinutes * 60 * 1000 /
        (retry.lapRetryIntervalSeconds * 1000)) - 1, by omega⟩
    simp only [fetchLapsWithRetry]
    rw [hm]
    exact fetchLapsAttempts_at_least_one env activityId retry.maxReadsPerRun m 1 readsUsed h

/-- Witness for C7 with the default retry policy. -/
theorem fetchLapsWithRetry_attempt_bound_witness :
    (fetchLapsWithRetry envC9 1 retryDefault 0).2.2.length ≤
      max 1 (retryDefault.lapRetryMaxMinutes * 60 * 1000 /
        (retryDefault.lapRetryIntervalSeconds * 1000)) ∧
    (0 + 1 < retryDefault.maxReadsPerRun →
      1 ≤ (fetchLapsWithRetry envC9 1 retryDefault 0).2.2.length) :=
  fetchLapsWithRetry_attempt_bound envC9 1 retryDefault 0 (by norm_num [retryDefault])

/-- C9: with missing credentials or an invalid pace range, the run issues
no network request at all, and — whenever the active-hours gate lets the
run proceed — it aborts by throwing the corresponding configuration
error. -/
theorem config_errors_before_network (env : Env)
    (h : env.credsPresent = false ∨
      paceRangeFromSettings env.settings.paceFastest env.settings.paceSlowest = none) :
    (runMain env).1 = [] ∧
    (isWithinActiveHours env.settings env.nowHour env.nowMinute = true →
      (runMain env).2 = RunResult.errCreds ∨ (runMain env).2 = RunResult.errPace) := by
  unfold runMain
  by_cases hw : isWithinActiveHours env.settings env.nowHour env.nowMinute = true
  · rcases h with hc | hp
    · simp [hw, hc]
    · by_cases hc : env.credsPresent = true
      · simp [hw, hc, hp]
      · simp [hw, hc]
  · simp [hw]

/-- Witness for C9: missing credentials inside the active window. -/
theorem config_errors_before_network_witness :
    (runMain envC9).1 = [] ∧
    (isWithinActiveHours envC9.settings envC9.nowHour envC9.nowMinute = true →
      (runMain envC9).2 = RunResult.errCreds ∨ (runMain envC9).2 = RunResult.errPace) :=
  config_errors_before_network envC9 (Or.inl rfl)

/-- C10: when the synthesizer reports no workout, `buildUpdate` still
rewrites the activity: the name becomes exactly `"Easy Run"` and the
description is the average-heart-rate line (with percent-of-max when a
non-zero maximum heart rate is configured) when the activity carries an
average heart rate, and the empty string otherwise. -/
theorem buildUpdate_easy_run (activity : Activity) (laps : List Lap)
    (paceRange : PaceRange) (settings : Settings)
    (h : generateWorkoutDescription laps paceRange
      (if settings.unitSystem = ("km") then ("km") else ("mi")) = none) :
    buildUpdate activity laps paceRange settings =
      { name := ("Easy Run"),
        description :=
          match activity.average_heartrate with
          | some avgHr =>
            formatAvgHrDescription avgHr
              (match settings.maxHr with
               | some v => if v = 0 then none else some v
               | none => none)
          | none => ("") } := by
  simp only [buildUpdate]
  rw [h]

/-- Witness for C10: no laps, an average heart rate of 150 and a configured
maximum of 190. -/
theorem buildUpdate_easy_run_witness :
    buildUpdate actHr [] exRange settingsHr =
      { name := ("Easy Run"),
        description :=
          match actHr.average_heartrate with
          | some avgHr =>
            formatAvgHrDescription avgHr
              (match settingsHr.maxHr with
               | some v => if v = 0 then none else some v
               | none => none)
          | none => ("") } :=
  buildUpdate_easy_run actHr [] exRange settingsHr (by simp [generateWorkoutDescription])

/-- Every event the attempt loop issues is a laps fetch for this activity. -/
theorem fetchLapsAttempts_events (env : Env) (aid mR : ℕ) :
    ∀ n attempt r, ∀ e ∈ (fetchLapsAttempts env aid mR n attempt r).2.2,
      e = Ev.getLaps aid := by
  intro n
  induction n with
  | zero => intro attempt r e he; simp [fetchLapsAttempts] at he
  | succ n ih =>
    intro attempt r e he
    simp only [fetchLapsAttempts] at he
    by_cases h : r + 1 < mR
    · rw [if_pos h] at he
      cases hres : env.lapsResp aid attempt with
      | none =>
        simp only [hres] at he
        simp only [List.mem_cons] at he
        rcases he with he | he
        · exact he
        · exact ih (attempt + 1) (r + 1) e he
      | some laps =>
        simp only [hres] at he
        by_cases hl : laps.isEmpty
        · rw [if_pos hl] at he
          simp only [List.mem_cons] at he
          rcases he with he | he
          · exact he
          · exact ih (attempt + 1) (r + 1) e he
        · rw [if_neg hl] at he
          simpa using he
    · rw [if_neg h] at he
      simp at he

/-- Every event `fetchLapsWithRetry` issues is a laps fetch. -/
theorem fetchLapsWithRetry_events (env : Env) (aid : ℕ) (retry : RetryPolicy)
    (r : ℕ) : ∀ e ∈ (fetchLapsWithRetry env aid retry r).2.2, e = Ev.getLaps aid := by
  intro e he
  exact fetchLapsAttempts_events env aid retry.maxReadsPerRun _ 1 r e he

/-- C4 amended, loop part: every activity update the per-activity loop
issues targets an activity whose summary name and (re-checked) detail name
both passed the exact default-name test at the time of the write. -/
theorem processActivities_updates_default_named (env : Env) (retry : RetryPolicy)
    (paceRange : PaceRange) (defaults : List String) :
    ∀ (summaries : List Activity) (readsUsed id : ℕ) (nm ds : Option String),
      Ev.putActivity id nm ds ∈
        (processActivities env retry paceRange defaults summaries readsUsed).1 →
      ∃ summary detail, summary ∈ summaries ∧
        isDefaultName summary.name defaults = true ∧
        env.detailResp summary.id = some detail ∧ detail.id = id ∧
        isDefaultName detail.name defaults = true := by
  intro summaries
  induction summaries with
  | nil => intro r id nm ds h; simp [processActivities] at h
  | cons summary rest ih =>
    intro r id nm ds h
    simp only [processActivities] at h
    by_cases h1 : retry.maxReadsPerRun ≤ r
    · rw [if_pos h1] at h; simp at h
    · rw [if_neg h1] at h
      cases h2 : (looksLikeRun summary.type || looksLikeRun summary.sport_type) with
      | false =>
        rw [h2] at h
        simp only [Bool.not_false, if_true] at h
        obtain ⟨s, d, hs, h4, h5, h6, h7⟩ := ih r id nm ds h
        exact ⟨s, d, List.mem_cons_of_mem _ hs, h4, h5, h6, h7⟩
      | true =>
        rw [h2] at h
        simp only [Bool.not_true, Bool.false_eq_true, if_false] at h
        cases h3 : isAlreadyRenamed summary.name with
        | true =>
          rw [h3] at h
          simp only [if_true] at h
          obtain ⟨s, d, hs, h4, h5, h6, h7⟩ := ih r id nm ds h
          exact ⟨s, d, List.mem_cons_of_mem _ hs, h4, h5, h6, h7⟩
        | false =>
          rw [h3] at h
          simp only [Bool.false_eq_true, if_false] at h
          cases h4 : isDefaultName summary.name defaults with
          | false =>
            rw [h4] at h
            simp only [Bool.not_false, if_true] at h
            obtain ⟨s, d, hs, h5, h6, h7, h8⟩ := ih r id nm ds h
            exact ⟨s, d, List.mem_cons_of_mem _ hs, h5, h6, h7, h8⟩
          | true =>
            rw [h4] at h
            simp only [Bool.not_true, Bool.false_eq_true, if_false] at h
            cases hd : env.detailResp summary.id with
            | none =>
              simp only [hd] at h
              simp only [List.mem_cons] at h
              rcases h with h | h
              · simp at h
              · obtain ⟨s, d, hs, h5, h6, h7, h8⟩ := ih (r + 1) id nm ds h
                exact ⟨s, d, List.mem_cons_of_mem _ hs, h5, h6, h7, h8⟩
            | some detail =>
              simp only [hd] at h
              by_cases h5 : detail.workout_type = some 1
              · rw [if_pos h5] at h
                simp only [List.mem_cons] at h
                rcases h with h | h
                · simp at h
                · obtain ⟨s, d, hs, h6, h7, h8, h9⟩ := ih (r + 1) id nm ds h
                  exact ⟨s, d, List.mem_cons_of_mem _ hs, h6, h7, h8, h9⟩
              · rw [if_neg h5] at h
                cases h6 : isDefaultName detail.name defaults with
                | false =>
                  rw [h6] at h
                  simp only [Bool.not_false, if_true] at h
                  simp only [List.mem_cons] at h
                  rcases h with h | h
                  · simp at h
                  · obtain ⟨s, d, hs, h7, h8, h9, h10⟩ := ih (r + 1) id nm ds h
                    exact ⟨s, d, List.mem_cons_of_mem _ hs, h7, h8, h9, h10⟩
                | true =>
                  rw [h6] at h
                  simp only [Bool.not_true, Bool.false_eq_true, if_false] at h
                  cases hfl : (fetchLapsWithRetry env detail.id retry (r + 1)).1 with
                  | none =>
                    simp only [hfl] at h
                    rw [List.mem_append, List.mem_cons] at h
                    rcases h with (h | h) | h
                    · simp at h
                    · have := fetchLapsWithRetry_events env detail.id retry (r + 1) _ h
                      simp at this
                    · obtain ⟨s, d, hs, h7, h8, h9, h10⟩ :=
                        ih (fetchLapsWithRetry env detail.id retry (r + 1)).2.1 id nm ds h
                      exact ⟨s, d, List.mem_cons_of_mem _ hs, h7, h8, h9, h10⟩
                  | some laps =>
                    simp only [hfl] at h
                    rw [List.mem_append, List.mem_cons, List.mem_cons] at h
                    rcases h with (h | h) | h | h
                    · simp at h
                    · have := fetchLapsWithRetry_events env detail.id retry (r + 1) _ h
                      simp at this
                    · obtain ⟨hid, _hnm, _hds⟩ := by simpa using h
                      exact ⟨summary, detail, List.mem_cons_self _ _, h4, hd, hid.symm, h6⟩
                    · obtain ⟨s, d, hs, h7, h8, h9, h10⟩ :=
                        ih (fetchLapsWithRetry env detail.id retry (r + 1)).2.1 id nm ds h
                      exact ⟨s, d, List.mem_cons_of_mem _ hs, h7, h8, h9, h10⟩

/-- The run-type test holds for the sample weekly activity. -/
theorem actC4_is_run : (looksLikeRun actC4.type || looksLikeRun actC4.sport_type) = true := by
  decide

/-- The weekly run filter keeps the sample activity. -/
theorem weeklyRuns_actC4 : weeklyRuns [actC4] = [actC4] := by
  simp [weeklyRuns, actC4_is_run]

/-- Week total of the sample weekly listing. -/
theorem weeklyTotal_actC4 : weeklyTotal [actC4] = 5000 := by
  simp [weeklyTotal, actC4]

/-- Target selection on the sample weekly listing. -/
theorem weeklyTarget_actC4 : weeklyTarget [actC4] = some actC4 := by
  simp [weeklyTarget, List.insertionSort, actC4]

/-- Suffix computed for the sample weekly listing. -/
theorem suffix_envC4 :
    formatWeekTotalSuffix 5000 (weekUnit envC4.settings) = ("(Week Total: 5.0 km)") := by
  have hunit : weekUnit envC4.settings = ("km") := by decide
  rw [hunit]
  simp only [formatWeekTotalSuffix, unitFactor_km]
  rw [show toFixed1 ((5000 : ℚ) / 1000) = ("5.0") from by
    unfold toFixed1
    norm_num [Int.floor_eq_iff]
    decide]
  decide

/-- One-page pagination on `envC4`. -/
theorem weekPaginate_envC4 :
    weekPaginate envC4.weekPages 90 1 1 [] = ([Ev.listWeek 1], 2, some [actC4]) := by
  rw [weekPaginate]
  norm_num [envC4]

/-- The weekly aggregator on `envC4` renames the non-default-named run. -/
theorem maybeFinalize_envC4 :
    maybeFinalizePreviousWeek envC4 90 1 =
      ([Ev.listWeek 1, Ev.putActivity 7 (some ("Lunch Jog (Week Total: 5.0 km)")) none],
       2, some (7, ("Lunch Jog (Week Total: 5.0 km)"))) := by
  have hinc : jsIncludes ("Lunch Jog") ("(Week Total: 5.0 km)") = false := by decide
  have happ : appendWeekTotalSuffix ("Lunch Jog") ("(Week Total: 5.0 km)") =
      ("Lunch Jog (Week Total: 5.0 km)") := by decide
  unfold maybeFinalizePreviousWeek
  rw [weekPaginate_envC4]
  have hgate : ¬ ((match envC4.settings.activeStart with
      | some st => st.1 * 60 + st.2
      | none => 0) + 30 < envC4.nowHour * 60 + envC4.nowMinute) := by decide
  rw [if_neg hgate]
  simp only [weeklyRuns_actC4, weeklyTotal_actC4, weeklyTarget_actC4, suffix_envC4]
  simp [hinc, happ, actC4]

/-- Full run on `envC4`: the only write is the weekly rename. -/
theorem runMain_envC4 :
    runMain envC4 =
      ([Ev.tokenRefresh, Ev.listActivities, Ev.listWeek 1,
        Ev.putActivity 7 (some ("Lunch Jog (Week Total: 5.0 km)")) none],
       RunResult.done) := by
  have hw : isWithinActiveHours envC4.settings envC4.nowHour envC4.nowMinute = true := by
    decide
  have hcreds : envC4.credsPresent = true := rfl
  have htok : envC4.tokenOk = true := rfl
  have hlist : envC4.listResp = some [] := rfl
  have hpace : paceRangeFromSettings envC4.settings.paceFastest envC4.settings.paceSlowest =
      some { fastest := min 5 7, slowest := max 5 7 } := rfl
  have hread : envC4.settings.maxReadsPerRun = none := rfl
  have hweek : envC4.settings.weekTotals = true := rfl
  unfold runMain
  simp only [hw, hcreds, htok, hlist, hpace, hread, hweek, Bool.not_true, Bool.false_eq_true,
    if_false, Option.getD_none, processActivities]
  rw [maybeFinalize_envC4]
  simp

/-- C4 counterexample: on `envC4` the program issues an activity update for
activity 7, whose name "Lunch Jog" is not among the configured default
names (the weekly aggregator never applies the default-name check). -/
theorem rename_without_default_name_check :
    Ev.putActivity 7 (some ("Lunch Jog (Week Total: 5.0 km)")) none ∈ (runMain envC4).1 ∧
    isDefaultName ("Lunch Jog") (envC4.settings.defaultRunNames.getD []) = false ∧
    ∀ a ∈ (envC4.weekPages 1).getD [], a.id = 7 ∧ a.name = ("Lunch Jog") := by
  refine ⟨?_, by decide, ?_⟩
  · rw [runMain_envC4]
    simp
  · intro a ha
    have h : a = actC4 := by simpa [envC4] using ha
    rw [h]
    exact ⟨rfl, rfl⟩

/-- The slow sample lap does not qualify for the sample pace range. -/
theorem lapSlow_not_qualifying : qualifies exRange ("km") lapSlow = false := by
  simp only [qualifies, paceMinutesPerUnit, unitFactor_km, lapSlow, exRange]
  norm_num

/-- A single non-qualifying lap passes through the merger unchanged. -/
theorem mergeLaps_lapSlow : mergeLapsByPace [lapSlow] exRange ("km") = [lapSlow] := by
  simp [mergeLapsByPace, mergeLapsAux, lapSlow_not_qualifying, flushGroup]

/-- No workout is detected on the single slow lap. -/
theorem gen_lapSlow_none : generateWorkoutDescription [lapSlow] exRange ("km") = none := by
  simp only [generateWorkoutDescription, mergeLaps_lapSlow]
  simp [List.findIdx?, lapSlow_not_qualifying]

/-- The Easy-Run update built for the sample non-workout activity. -/
theorem buildUpdate_envC4w :
    buildUpdate actC4w [lapSlow] exRange { settingsBase with weekTotals := false } =
      { name := ("Easy Run"), description := ("") } := by
  simp only [buildUpdate]
  rw [show (if ({ settingsBase with weekTotals := false } : Settings).unitSystem = ("km")
      then ("km") else ("mi")) = ("km") from by decide]
  rw [gen_lapSlow_none]
  rfl

/-- The lap fetch on `envC4w` succeeds on the first attempt. -/
theorem fetchLaps_envC4w :
    fetchLapsWithRetry envC4w 42 retryDefault 2 = (some [lapSlow], 3, [Ev.getLaps 42]) := by
  unfold fetchLapsWithRetry
  simp only [retryDefault]
  norm_num
  rw [show (30 : ℕ) = 29 + 1 from rfl]
  simp [fetchLapsAttempts, envC4w, lapSlow]

/-- The per-activity loop on `envC4w` issues exactly the Easy-Run rewrite. -/
theorem processActivities_envC4w :
    (processActivities envC4w retryDefault exRange [("Morning Run")] [actC4w] 1).1 =
      [Ev.getDetail 42, Ev.getLaps 42, Ev.putActivity 42 (some ("Easy Run")) (some (""))] := by
  have h1 : ¬ retryDefault.maxReadsPerRun ≤ 1 := by decide
  have h2 : (looksLikeRun actC4w.type || looksLikeRun actC4w.sport_type) = true := by decide
  have h3 : isAlreadyRenamed actC4w.name = false := by decide
  have h4 : isDefaultName actC4w.name [("Morning Run")] = true := by decide
  have h5 : envC4w.detailResp actC4w.id = some actC4w := rfl
  have h6 : ¬ actC4w.workout_type = some 1 := by decide
  have h7 : envC4w.settings = { settingsBase with weekTotals := false } := rfl
  simp only [processActivities, h1, h2, h3, h4, h5, h6, if_neg, if_pos, Bool.not_true,
    Bool.false_eq_true, if_false]
  rw [show actC4w.id = 42 from rfl, fetchLaps_envC4w]
  simp only [h7, buildUpdate_envC4w, processActivities]
  rfl

/-- Witness for the amended C4: the Easy-Run rewrite issued on `envC4w`
targets the default-named activity 42. -/
theorem processActivities_updates_default_named_witness :
    ∃ summary detail, summary ∈ [actC4w] ∧
      isDefaultName summary.name [("Morning Run")] = true ∧
      envC4w.detailResp summary.id = some detail ∧ detail.id = 42 ∧
      isDefaultName detail.name [("Morning Run")] = true :=
  processActivities_updates_default_named envC4w retryDefault exRange [("Morning Run")]
    [actC4w] 1 42 (some ("Easy Run")) (some (""))
    (by rw [processActivities_envC4w]; simp)

/-- A character list is a prefix of itself. -/
theorem isPrefixOf_self : ∀ l : List Char, l.isPrefixOf l = true := by
  intro l
  induction l with
  | nil => rfl
  | cons c t ih => simp [List.isPrefixOf, ih]

/-- A list that ends in `n` contains `n` as a substring. -/
theorem listHasSub_append_self : ∀ B n : List Char, listHasSub n (B ++ n) = true := by
  intro B
  induction B with
  | nil =>
    intro n
    cases n with
    | nil => rfl
    | cons c t => simp [listHasSub, isPrefixOf_self]
  | cons c B ih =>
    intro n
    simp [listHasSub, ih n]

/-- Dropping a prefix cannot eat into a tail whose head fails the test. -/
theorem dropWhile_append_of_head (p : Char → Bool) (l : List Char) (c : Char)
    (t : List Char) (hc : p c = false) :
    ∃ B, List.dropWhile p (l ++ c :: t) = B ++ c :: t := by
  rw [List.dropWhile_append]
  split
  · exact ⟨[], by simp [List.dropWhile_cons, hc]⟩
  · exact ⟨_, rfl⟩

/-- Trimming a string that ends in a parenthesised tail keeps that tail as
a suffix (the tail's first and last characters are not whitespace). -/
theorem trimChars_append_shape (l mid : List Char) :
    ∃ B, trimChars (l ++ (('(' : Char) :: (mid ++ [(')' : Char)]))) =
      B ++ (('(' : Char) :: (mid ++ [(')' : Char)])) := by
  obtain ⟨B₁, hB₁⟩ :=
    dropWhile_append_of_head Char.isWhitespace l '(' (mid ++ [(')' : Char)]) (by decide)
  refine ⟨B₁, ?_⟩
  unfold trimChars
  rw [hB₁]
  obtain ⟨t, ht⟩ : ∃ t, (B₁ ++ (('(' : Char) :: (mid ++ [(')' : Char)]))).reverse =
      (')' : Char) :: t := by
    refine ⟨mid.reverse ++ ('(' : Char) :: B₁.reverse, ?_⟩
    simp
  rw [ht, List.dropWhile_cons]
  have hws : ((')' : Char).isWhitespace) = false := by decide
  rw [hws]
  simp only [Bool.false_eq_true, if_false]
  rw [← ht, List.reverse_reverse]

/-- Characters of a string concatenation. -/
theorem toList_append (s t : String) : (s ++ t).toList = s.toList ++ t.toList :=
  String.data_append s t

/-- The week-total suffix always reads `(`…`)` with no whitespace at either
end. -/
theorem formatWeekTotalSuffix_shape (total : ℚ) (u : String) :
    ∃ mid, (formatWeekTotalSuffix total u).toList =
      ('(' : Char) :: (mid ++ [(')' : Char)]) := by
  refine ⟨("Week Total: ").toList ++ (toFixed1 (total / unitFactor u)).toList ++
    (" ").toList ++ (if u = ("mi") then ("mi") else ("km")).toList, ?_⟩
  unfold formatWeekTotalSuffix
  simp only [toList_append]
  rw [show ("(Week Total: ").toList = ('(' : Char) :: ("Week Total: ").toList from by decide]
  rw [show (")").toList = [(')' : Char)] from by decide]
  simp [List.append_assoc]

/-- The name produced by `appendWeekTotalSuffix` contains the exact suffix. -/
theorem appendWeekTotalSuffix_includes (name : String) (total : ℚ) (u : String) :
    jsIncludes (appendWeekTotalSuffix name (formatWeekTotalSuffix total u))
      (formatWeekTotalSuffix total u) = true := by
  obtain ⟨mid, hmid⟩ := formatWeekTotalSuffix_shape total u
  have hmid' : (formatWeekTotalSuffix total u).data =
      ('(' : Char) :: (mid ++ [(')' : Char)]) := hmid
  show listHasSub (formatWeekTotalSuffix total u).data
    (trimChars (((jsTrim (String.mk (replaceWeekTotalTail name.data))).data ++
      (" ").data) ++ (formatWeekTotalSuffix total u).data)) = true
  rw [hmid']
  obtain ⟨B, hB⟩ := trimChars_append_shape
    ((jsTrim (String.mk (replaceWeekTotalTail name.data))).data ++ (" ").data) mid
  rw [hB]
  exact listHasSub_append_self B _

/-- The name produced by `appendWeekTotalSuffix` is never empty. -/
theorem appendWeekTotalSuffix_ne_empty (name : String) (total : ℚ) (u : String) :
    appendWeekTotalSuffix name (formatWeekTotalSuffix total u) ≠ ("") := by
  obtain ⟨mid, hmid⟩ := formatWeekTotalSuffix_shape total u
  have hmid' : (formatWeekTotalSuffix total u).data =
      ('(' : Char) :: (mid ++ [(')' : Char)]) := hmid
  intro h0
  have hd : trimChars (((jsTrim (String.mk (replaceWeekTotalTail name.data))).data ++
      (" ").data) ++ (formatWeekTotalSuffix total u).data) = ([] : List Char) :=
    congrArg String.data h0
  rw [hmid'] at hd
  obtain ⟨B, hB⟩ := trimChars_append_shape
    ((jsTrim (String.mk (replaceWeekTotalTail name.data))).data ++ (" ").data) mid
  rw [hB] at hd
  simp at hd

/-- Renaming preserves the start date. -/
theorem renameIfId_start_date (i : ℕ) (n : String) (a : Activity) :
    (renameIfId i n a).start_date = a.start_date := by
  unfold renameIfId
  split <;> rfl

/-- Renaming preserves the activity type. -/
theorem renameIfId_type (i : ℕ) (n : String) (a : Activity) :
    (renameIfId i n a).type = a.type := by
  unfold renameIfId
  split <;> rfl

/-- Renaming preserves the sport type. -/
theorem renameIfId_sport_type (i : ℕ) (n : String) (a : Activity) :
    (renameIfId i n a).sport_type = a.sport_type := by
  unfold renameIfId
  split <;> rfl

/-- Renaming preserves the workout type. -/
theorem renameIfId_workout_type (i : ℕ) (n : String) (a : Activity) :
    (renameIfId i n a).workout_type = a.workout_type := by
  unfold renameIfId
  split <;> rfl

/-- Renaming preserves the distance. -/
theorem renameIfId_distance (i : ℕ) (n : String) (a : Activity) :
    (renameIfId i n a).distance = a.distance := by
  unfold renameIfId
  split <;> rfl

/-- Ordered insertion commutes with a start-date-preserving rename. -/
theorem orderedInsert_renameIfId (i : ℕ) (n : String) (a : Activity) :
    ∀ l, (List.orderedInsert byStartDesc a l).map (renameIfId i n) =
      List.orderedInsert byStartDesc (renameIfId i n a) (l.map (renameIfId i n)) := by
  intro l
  induction l with
  | nil => rfl
  | cons b t ih =>
    have hrel : byStartDesc (renameIfId i n a) (renameIfId i n b) ↔ byStartDesc a b := by
      unfold byStartDesc
      rw [renameIfId_start_date, renameIfId_start_date]
    simp only [List.orderedInsert, List.map_cons]
    by_cases h : byStartDesc a b
    · rw [if_pos h, if_pos (hrel.mpr h)]
      simp
    · rw [if_neg h, if_neg (fun hh => h (hrel.mp hh))]
      simp [ih]

/-- Insertion sort commutes with a start-date-preserving rename. -/
theorem insertionSort_renameIfId (i : ℕ) (n : String) :
    ∀ l, (List.insertionSort byStartDesc l).map (renameIfId i n) =
      List.insertionSort byStartDesc (l.map (renameIfId i n)) := by
  intro l
  induction l with
  | nil => rfl
  | cons a t ih =>
    simp only [List.insertionSort, List.map_cons]
    rw [← ih, orderedInsert_renameIfId]

/-- The weekly run filter commutes with renaming. -/
theorem weeklyRuns_renameIfId (i : ℕ) (n : String) (l : List Activity) :
    weeklyRuns (l.map (renameIfId i n)) = (weeklyRuns l).map (renameIfId i n) := by
  unfold weeklyRuns
  rw [List.filter_map]
  exact congrArg (List.map _) (List.filter_congr fun a _ => by
    simp [Function.comp, renameIfId_type, renameIfId_sport_type])

/-- The week total is unchanged by renaming. -/
theorem weeklyTotal_renameIfId (i : ℕ) (n : String) (l : List Activity) :
    weeklyTotal (l.map (renameIfId i n)) = weeklyTotal l := by
  unfold weeklyTotal
  rw [List.foldl_map]
  have h : (fun (s : ℚ) a => s + (renameIfId i n a).distance.getD 0) =
      fun (s : ℚ) a => s + a.distance.getD 0 := by
    funext s a
    rw [renameIfId_distance]
  rw [h]

/-- Target selection commutes with renaming. -/
theorem weeklyTarget_renameIfId (i : ℕ) (n : String) (l : List Activity) :
    weeklyTarget (l.map (renameIfId i n)) =
      Option.map (renameIfId i n) (weeklyTarget l) := by
  unfold weeklyTarget
  rw [List.filter_map]
  have h1 : List.filter ((fun a => a.start_date.isSome) ∘ renameIfId i n) l =
      List.filter (fun a => a.start_date.isSome) l :=
    List.filter_congr fun a _ => by simp [Function.comp, renameIfId_start_date]
  rw [h1, ← insertionSort_renameIfId, List.find?_map]
  have h2 : ((fun a => decide (a.workout_type ≠ some 1)) ∘ renameIfId i n) =
      fun a => decide (a.workout_type ≠ some 1) := by
    funext a
    simp [Function.comp, renameIfId_workout_type]
  rw [h2]

/-- Pagination over the renamed listing mirrors the original pagination,
page for page, with the same events and read counts. -/
theorem weekPaginate_map (pages : ℕ → Option (List Activity)) (f : Activity → Activity)
    (mR : ℕ) : ∀ (page r : ℕ) (acc : List Activity),
    weekPaginate (fun p => Option.map (List.map f) (pages p)) mR page r (acc.map f) =
      ((weekPaginate pages mR page r acc).1, (weekPaginate pages mR page r acc).2.1,
       Option.map (List.map f) (weekPaginate pages mR page r acc).2.2) := by
  intro page r acc
  induction page, r, acc using weekPaginate.induct pages mR with
  | case1 page r acc h hp => simp [weekPaginate, h, hp]
  | case2 page r acc h batch hp hlen => simp [weekPaginate, h, hp, hlen]
  | case3 page r acc h batch hp hlen ih =>
    rw [weekPaginate]
    rw [show weekPaginate pages mR page r acc =
      (let next := weekPaginate pages mR (page + 1) (r + 1) (acc ++ batch)
       (Ev.listWeek page :: next.1, next.2)) from by
        rw [weekPaginate]
        simp [h, hp, hlen]]
    simp only [dif_pos h, hp, Option.map_some']
    rw [List.map_append] at ih
    simp [List.length_map, hlen, ih]
  | case4 page r acc h => simp [weekPaginate, h]

/-- Mapping preserves list emptiness. -/
theorem isEmpty_map (f : Activity → Activity) (l : List Activity) :
    (l.map f).isEmpty = l.isEmpty := by
  cases l <;> rfl

/-- The empty name contains no week-total suffix. -/
theorem jsIncludes_empty_suffix (total : ℚ) (u : String) :
    jsIncludes ("") (formatWeekTotalSuffix total u) = false := by
  obtain ⟨mid, hmid⟩ := formatWeekTotalSuffix_shape total u
  have hmid' : (formatWeekTotalSuffix total u).data =
      ('(' : Char) :: (mid ++ [(')' : Char)]) := hmid
  show listHasSub (formatWeekTotalSuffix total u).data ([] : List Char) = false
  rw [hmid']
  rfl

/-- C8: if the selected weekly target's name already contains the exact
computed week-total suffix, the aggregator issues no rename; and after a
rename is issued, re-running the aggregator in the same window over the
same listing (with only that name updated) issues no second rename. -/
theorem weekly_suffix_idempotent :
    (∀ (env : Env) (mR r r' : ℕ) (evs : List Ev) (acts : List Activity) (t : Activity),
      weekPaginate env.weekPages mR 1 r [] = (evs, r', some acts) →
      weeklyTarget (weeklyRuns acts) = some t →
      jsIncludes t.name
        (formatWeekTotalSuffix (weeklyTotal (weeklyRuns acts)) (weekUnit env.settings)) =
        true →
      (maybeFinalizePreviousWeek env mR r).2.2 = none) ∧
    (∀ (env : Env) (mR r i : ℕ) (n : String),
      (maybeFinalizePreviousWeek env mR r).2.2 = some (i, n) →
      (maybeFinalizePreviousWeek (envRenamed env i n) mR r).2.2 = none) := by
  constructor
  · intro env mR r r' evs acts t hpag htgt hinc
    simp only [maybeFinalizePreviousWeek]
    split
    · rfl
    · simp only [hpag]
      split
      · rfl
      · split
        · rfl
        · simp only [htgt]
          have hne : t.name ≠ ("") := by
            intro h0
            rw [h0, jsIncludes_empty_suffix] at hinc
            simp at hinc
          rw [if_pos ⟨hne, hinc⟩]
  · intro env mR r i n hiss
    simp only [maybeFinalizePreviousWeek] at hiss
    split at hiss
    · simp at hiss
    next hgate =>
      split at hiss
      next evs r' res heq =>
        simp at hiss
      next evs r' acts heq =>
        split at hiss
        · simp at hiss
        next hne1 =>
          split at hiss
          · simp at hiss
          next hne2 =>
            split at hiss
            · simp at hiss
            next lastRun htgt =>
              split at hiss
              · simp at hiss
              next hguard =>
                simp only [Prod.mk.injEq, Option.some.injEq] at hiss
                obtain ⟨hid, hname⟩ := hiss
                simp only [maybeFinalizePreviousWeek, envRenamed]
                rw [if_neg hgate]
                have hmap := weekPaginate_map env.weekPages (renameIfId i n) mR 1 r []
                simp only [List.map_nil] at hmap
                rw [hmap, heq]
                simp only [Option.map_some']
                rw [show (acts.map (renameIfId i n)).isEmpty = acts.isEmpty from
                  isEmpty_map _ _]
                split
                · rfl
                · rw [weeklyRuns_renameIfId]
                  rw [show ((weeklyRuns acts).map (renameIfId i n)).isEmpty =
                    (weeklyRuns acts).isEmpty from isEmpty_map _ _]
                  split
                  · rfl
                  · rw [weeklyTotal_renameIfId, weeklyTarget_renameIfId, htgt]
                    simp only [Option.map_some']
                    have hfl : renameIfId i n lastRun = { lastRun with name := n } := by
                      unfold renameIfId
                      rw [if_pos hid]
                    have hcond : ({ lastRun with name := n } : Activity).name ≠ ("") ∧
                        jsIncludes ({ lastRun with name := n } : Activity).name
                          (formatWeekTotalSuffix (weeklyTotal (weeklyRuns acts))
                            (weekUnit env.settings)) = true := by
                      constructor
                      · show n ≠ ("")
                        rw [← hname]
                        exact appendWeekTotalSuffix_ne_empty lastRun.name
                          (weeklyTotal (weeklyRuns acts)) (weekUnit env.settings)
                      · show jsIncludes n
                          (formatWeekTotalSuffix (weeklyTotal (weeklyRuns acts))
                            (weekUnit env.settings)) = true
                        rw [← hname]
                        exact appendWeekTotalSuffix_includes lastRun.name
                          (weeklyTotal (weeklyRuns acts)) (weekUnit env.settings)
                    rw [hfl, if_pos hcond]

/-- The weekly run filter keeps the already-suffixed sample activity. -/
theorem weeklyRuns_actC8a : weeklyRuns [actC8a] = [actC8a] := by
  simp [weeklyRuns,
    show (looksLikeRun actC8a.type || looksLikeRun actC8a.sport_type) = true from by decide]

/-- Week total of the already-suffixed sample listing. -/
theorem weeklyTotal_actC8a : weeklyTotal [actC8a] = 5000 := by
  simp [weeklyTotal, actC8a, actC4]

/-- Target selection on the already-suffixed sample listing. -/
theorem weeklyTarget_actC8a : weeklyTarget [actC8a] = some actC8a := by
  simp [weeklyTarget, List.insertionSort, actC8a, actC4]

/-- One-page pagination on `envC8a`. -/
theorem weekPaginate_envC8a :
    weekPaginate envC8a.weekPages 90 1 1 [] = ([Ev.listWeek 1], 2, some [actC8a]) := by
  rw [weekPaginate]
  norm_num [envC8a, envC4]

/-- The already-suffixed name contains the computed suffix. -/
theorem actC8a_name_includes :
    jsIncludes actC8a.name
      (formatWeekTotalSuffix (weeklyTotal (weeklyRuns [actC8a])) (weekUnit envC8a.settings)) =
      true := by
  rw [weeklyRuns_actC8a, weeklyTotal_actC8a]
  rw [show weekUnit envC8a.settings = weekUnit envC4.settings from rfl, suffix_envC4]
  decide

/-- Witness for C8: a no-op on the already-suffixed listing, and a no-op
second application after the rename issued on `envC4`. -/
theorem weekly_suffix_idempotent_witness :
    (maybeFinalizePreviousWeek envC8a 90 1).2.2 = none ∧
    (maybeFinalizePreviousWeek
      (envRenamed envC4 7 ("Lunch Jog (Week Total: 5.0 km)")) 90 1).2.2 = none := by
  constructor
  · exact weekly_suffix_idempotent.1 envC8a 90 1 2 [Ev.listWeek 1] [actC8a] actC8a
      weekPaginate_envC8a weeklyTarget_actC8a actC8a_name_includes
  · exact weekly_suffix_idempotent.2 envC4 90 1 7 ("Lunch Jog (Week Total: 5.0 km)")
      (by rw [maybeFinalize_envC4])

end Autopilot
